import Mathlib

/-!
Shallow embedding of `src/server.js` of the text-speech-backend repository:
an Express service whose `POST /transcribe` handler uploads an audio file to
AssemblyAI, creates a transcription job, polls its status, stores the result
in Supabase, and whose other routes list and delete stored transcriptions.
Remote calls are modelled as an explicit environment (`Env`); the observable
side effects of a request are collected in a trace of `Effect`s.
-/

namespace TextSpeech

/-- One polling response's payload: the fields of `pollingResponse.data` that
the handler reads (`status` and `text`).  `text` is `none` when the JSON field
is `null`/absent. -/
structure PollSnapshot where
  status : String
  text : Option String
deriving Repr, DecidableEq

/-- `req.file` as multer presents it: original name and in-memory buffer. -/
structure UploadedFile where
  originalname : String
  buffer : List Nat
deriving Repr, DecidableEq

/-- Observable remote side effects of one `POST /transcribe` request. -/
inductive Effect where
  | wait5s
  | uploadCall (buffer : List Nat)
  | createJobCall (audioUrl : String)
  | fetchStatus (i : Nat)
  | insertRecord (text : String)
deriving Repr, DecidableEq

/-- Outcomes of the remote provider and the store for one request.  `upload`
maps the sent buffer to `upload_url` or an axios failure, `createJob` maps the
`audio_url` to the transcript id or a failure, `fetch i` is the i-th polling
response, `insert t` is `some msg` when the Supabase insert reports an error. -/
structure Env where
  upload : List Nat → Except String String
  createJob : String → Except String String
  fetch : Nat → Except String PollSnapshot
  insert : String → Option String

/-- JSON bodies the server sends. -/
inductive ResponseBody where
  | transcriptionOf (text : String)
  | errorOf (msg : String)
  | messageOf (msg : String)
  | recordsOf (records : List (String × String × Nat))
deriving Repr, DecidableEq

structure HttpResponse where
  status : Nat
  body : ResponseBody
deriving Repr, DecidableEq

/-- The global error-handler middleware: every error thrown by a route is
turned into `res.status(500).json({ error: err.message })`. -/
def errorResponse (msg : String) : HttpResponse :=
  { status := 500, body := .errorOf msg }

def isErrorBody : ResponseBody → Bool
  | .errorOf _ => true
  | _ => false

/-- `const MAX_RETRIES = 20`. -/
def MAX_RETRIES : Nat := 20

/-- Outcome of the `while (attempts < MAX_RETRIES)` polling loop. -/
inductive PollOutcome where
  | completedWith (text : Option String)
  | failedStatus
  | fetchError (msg : String)
  | exhausted
deriving Repr, DecidableEq

/-- The polling loop, structurally recursive on the remaining number of
iterations (`fuel = MAX_RETRIES - attempts`, so the guard
`attempts < MAX_RETRIES` is exactly `fuel > 0`).  Each iteration waits 5
seconds, fetches the status; `completed` breaks out with `data.text`,
`failed` throws, a fetch failure propagates the axios error, anything else
increments `attempts` and loops. -/
def pollLoopAux (fetch : Nat → Except String PollSnapshot) :
    Nat → Nat → List Effect × PollOutcome
  | _, 0 => ([], .exhausted)
  | attempts, fuel + 1 =>
    match fetch attempts with
    | .error msg => ([.wait5s, .fetchStatus attempts], .fetchError msg)
    | .ok snap =>
      if snap.status = "completed" then
        ([.wait5s, .fetchStatus attempts], .completedWith snap.text)
      else if snap.status = "failed" then
        ([.wait5s, .fetchStatus attempts], .failedStatus)
      else
        let rest := pollLoopAux fetch (attempts + 1) fuel
        (.wait5s :: .fetchStatus attempts :: rest.1, rest.2)

/-- The loop as entered by the handler: `attempts` starts at the given value
and is bounded by `MAX_RETRIES`. -/
def pollLoop (fetch : Nat → Except String PollSnapshot) (attempts : Nat) :
    List Effect × PollOutcome :=
  pollLoopAux fetch attempts (MAX_RETRIES - attempts)

/-- JavaScript truthiness of `transcriptResult` in `if (!transcriptResult)`:
`null`/`undefined` and the empty string are falsy. -/
def truthyText : Option String → Bool
  | none => false
  | some s => !(s == "")

/-- The part of the `/transcribe` handler after job creation: dispatch on the
polling outcome, then insert into Supabase and answer, or throw into the
global error handler. -/
def afterPoll (env : Env) (f : UploadedFile) (audioUrl : String)
    (polled : List Effect × PollOutcome) : List Effect × HttpResponse :=
  let pre := Effect.uploadCall f.buffer :: Effect.createJobCall audioUrl :: polled.1
  match polled.2 with
  | .fetchError msg => (pre, errorResponse msg)
  | .failedStatus => (pre, errorResponse "Transcription failed")
  | .exhausted => (pre, errorResponse "Transcription polling timed out.")
  | .completedWith t =>
    if truthyText t then
      match env.insert (t.getD "") with
      | some msg => (pre ++ [.insertRecord (t.getD "")],
          errorResponse ("Supabase Insert Error: " ++ msg))
      | none => (pre ++ [.insertRecord (t.getD "")],
          { status := 200, body := .transcriptionOf (t.getD "") })
    else (pre, errorResponse "Transcription polling timed out.")

/-- The `POST /transcribe` handler: reject a missing file, upload the buffer,
create the job, poll, store, respond; every thrown error reaches the global
error handler (`errorResponse`). -/
def handleTranscribe (env : Env) (file : Option UploadedFile) :
    List Effect × HttpResponse :=
  match file with
  | none => ([], errorResponse "No file uploaded")
  | some f =>
    match env.upload f.buffer with
    | .error msg => ([.uploadCall f.buffer], errorResponse msg)
    | .ok audioUrl =>
      match env.createJob audioUrl with
      | .error msg =>
          ([.uploadCall f.buffer, .createJobCall audioUrl], errorResponse msg)
      | .ok _transcriptId =>
          afterPoll env f audioUrl (pollLoop env.fetch 0)

/-- A stored transcription row: id, transcription text, creation timestamp. -/
structure Record where
  id : String
  transcription : String
  created_at : Nat
deriving Repr, DecidableEq

/-- The ordering requested by `.order("created_at", { ascending: false })`:
newest first. -/
def createdAtDesc (a b : Record) : Prop := b.created_at ≤ a.created_at

instance : DecidableRel createdAtDesc :=
  fun a b => Nat.decLe b.created_at a.created_at

instance : IsTotal Record createdAtDesc :=
  ⟨fun a b => Nat.le_total b.created_at a.created_at⟩

instance : IsTrans Record createdAtDesc :=
  ⟨fun _ _ _ hab hbc => Nat.le_trans hbc hab⟩

/-- `GET /transcriptions`: select all rows ordered by `created_at`
descending; a Supabase error is thrown into the global error handler. -/
def handleListTranscriptions (storeErr : Option String) (store : List Record) :
    HttpResponse :=
  match storeErr with
  | some msg => errorResponse ("Supabase Fetch Error: " ++ msg)
  | none =>
      { status := 200,
        body := .recordsOf ((List.insertionSort createdAtDesc store).map
          (fun r => (r.id, r.transcription, r.created_at))) }

/-- `.delete().match({ id })`: remove every row whose id matches. -/
def deleteById (store : List Record) (id : String) : List Record :=
  store.filter (fun r => !(r.id == id))

/-- `DELETE /transcriptions/:id`: delete matching rows; on success respond
with the fixed message, on a Supabase error throw into the error handler. -/
def handleDeleteById (storeErr : Option String) (store : List Record)
    (id : String) : List Record × HttpResponse :=
  match storeErr with
  | some msg => (store, errorResponse ("Supabase Delete Error: " ++ msg))
  | none =>
      (deleteById store id,
       { status := 200, body := .messageOf "Transcription deleted successfully" })

/-- The i-th fetch succeeds with a status that is neither `completed` nor
`failed`. -/
def nonTerminalOk (fetch : Nat → Except String PollSnapshot) (i : Nat) : Prop :=
  ∃ snap, fetch i = Except.ok snap ∧
    snap.status ≠ "completed" ∧ snap.status ≠ "failed"

/-- The effect trace of `n` non-terminal loop iterations starting at attempt
`a`: each status fetch is preceded by its 5-second wait. -/
def pollTraceFrom : Nat → Nat → List Effect
  | _, 0 => []
  | a, n + 1 => .wait5s :: .fetchStatus a :: pollTraceFrom (a + 1) n

/-- Number of status fetches in an effect trace. -/
def countFetches (es : List Effect) : Nat :=
  (es.filter fun e => match e with | .fetchStatus _ => true | _ => false).length

/-- A sample audio file. -/
def fileA : UploadedFile := { originalname := "a.mp3", buffer := [1, 2] }

/-- An empty (zero-byte) uploaded file. -/
def fileEmpty : UploadedFile := { originalname := "e.mp3", buffer := [] }

/-- Provider that always answers `processing`; upload, job creation and the
store succeed. -/
def envProcessing : Env :=
  { upload := fun _ => .ok "u",
    createJob := fun _ => .ok "t",
    fetch := fun _ => .ok { status := "processing", text := none },
    insert := fun _ => none }

/-- Provider whose job-creation call fails. -/
def envJobRejected : Env :=
  { upload := fun _ => .ok "u",
    createJob := fun _ => .error "Request failed with status code 401",
    fetch := fun _ => .ok { status := "processing", text := none },
    insert := fun _ => none }

/-- Provider that completes on the first poll with text `hello world`. -/
def envCompletedOk : Env :=
  { upload := fun _ => .ok "u",
    createJob := fun _ => .ok "t",
    fetch := fun _ => .ok { status := "completed", text := some "hello world" },
    insert := fun _ => none }

/-- Provider that reports `failed` on the first poll. -/
def envFailedStatus : Env :=
  { upload := fun _ => .ok "u",
    createJob := fun _ => .ok "t",
    fetch := fun _ => .ok { status := "failed", text := none },
    insert := fun _ => none }

/-- Provider that completes with an empty transcript text. -/
def envCompletedEmpty : Env :=
  { upload := fun _ => .ok "u",
    createJob := fun _ => .ok "t",
    fetch := fun _ => .ok { status := "completed", text := some "" },
    insert := fun _ => none }

/-- Provider that completes, but the store insert fails. -/
def envInsertFails : Env :=
  { upload := fun _ => .ok "u",
    createJob := fun _ => .ok "t",
    fetch := fun _ => .ok { status := "completed", text := some "hello world" },
    insert := fun _ => some "disk full" }

/-- Provider that always reports the out-of-enumeration status `error`. -/
def envErrorStatus : Env :=
  { upload := fun _ => .ok "u",
    createJob := fun _ => .ok "t",
    fetch := fun _ => .ok { status := "error", text := none },
    insert := fun _ => none }

theorem countFetches_pollTraceFrom (a n : Nat) :
    countFetches (pollTraceFrom a n) = n := by
  induction n generalizing a with
  | zero => rfl
  | succ n ih =>
      simp [pollTraceFrom, countFetches, List.filter] at ih ⊢
      exact ih (a + 1)

theorem countFetches_append (xs ys : List Effect) :
    countFetches (xs ++ ys) = countFetches xs + countFetches ys := by
  simp [countFetches, List.filter_append]

/-- The loop performs at most `fuel` status fetches. -/
theorem pollLoopAux_fetch_bound (f : Nat → Except String PollSnapshot)
    (a n : Nat) : countFetches (pollLoopAux f a n).1 ≤ n := by
  induction n generalizing a with
  | zero => simp [pollLoopAux, countFetches]
  | succ n ih =>
      simp only [pollLoopAux]
      cases hfa : f a with
      | error msg => simp [countFetches, List.filter]
      | ok snap =>
          by_cases hc : snap.status = "completed"
          · simp [hc, countFetches, List.filter]
          · by_cases hfl : snap.status = "failed"
            · simp [hc, hfl, countFetches, List.filter]
            · simp only [hc, hfl, if_false]
              have := ih (a + 1)
              simp [countFetches, List.filter] at this ⊢
              omega

/-- The polling loop itself never records an insert effect. -/
theorem pollLoopAux_no_insert (f : Nat → Except String PollSnapshot)
    (a n : Nat) (t : String) :
    Effect.insertRecord t ∉ (pollLoopAux f a n).1 := by
  induction n generalizing a with
  | zero => simp [pollLoopAux]
  | succ n ih =>
      simp only [pollLoopAux]
      cases hfa : f a with
      | error msg => simp
      | ok snap =>
          by_cases hc : snap.status = "completed"
          · simp [hc]
          · by_cases hfl : snap.status = "failed"
            · simp [hc, hfl]
            · simp only [hc, hfl, if_false]
              simp [ih (a + 1)]

/-- If every fetched status in range is non-terminal, the loop runs its full
trace and exhausts the fuel. -/
theorem pollLoopAux_nonterminal (f : Nat → Except String PollSnapshot)
    (n a : Nat) (h : ∀ i, a ≤ i → i < a + n → nonTerminalOk f i) :
    pollLoopAux f a n = (pollTraceFrom a n, PollOutcome.exhausted) := by
  induction n generalizing a with
  | zero => rfl
  | succ n ih =>
      obtain ⟨snap, hfa, hnc, hnf⟩ :=
        h a (Nat.le_refl a) (by omega)
      have ihe := ih (a + 1) (fun i h1 h2 => h i (by omega) (by omega))
      simp only [pollLoopAux, hfa, hnc, hnf, if_false, ihe, pollTraceFrom]

/-- A `completedWith` outcome can only come from a fetch that returned status
`completed` with that text. -/
theorem pollLoopAux_completed_src (f : Nat → Except String PollSnapshot)
    (n a : Nat) (t : Option String)
    (h : (pollLoopAux f a n).2 = PollOutcome.completedWith t) :
    ∃ i snap, f i = Except.ok snap ∧ snap.status = "completed" ∧
      snap.text = t := by
  induction n generalizing a with
  | zero => simp [pollLoopAux] at h
  | succ n ih =>
      simp only [pollLoopAux] at h
      cases hfa : f a with
      | error msg => rw [hfa] at h; simp at h
      | ok snap =>
          rw [hfa] at h
          by_cases hc : snap.status = "completed"
          · simp [hc] at h
            exact ⟨a, snap, hfa, hc, h⟩
          · by_cases hfl : snap.status = "failed"
            · simp [hc, hfl] at h
            · simp only [hc, hfl, if_false] at h
              exact ih (a + 1) h

/-- If the first `j` fetches are non-terminal and fetch `a + j` returns
status `failed` within the fuel, the loop stops right there with
`failedStatus`: the trace ends at that fetch. -/
theorem pollLoopAux_reach_failed (f : Nat → Except String PollSnapshot)
    (j : Nat) (n a : Nat) (snap : PollSnapshot)
    (hpre : ∀ i, a ≤ i → i < a + j → nonTerminalOk f i)
    (hj : j < n) (hf : f (a + j) = Except.ok snap)
    (hs : snap.status = "failed") :
    pollLoopAux f a n =
      (pollTraceFrom a j ++ [Effect.wait5s, Effect.fetchStatus (a + j)],
       PollOutcome.failedStatus) := by
  induction j generalizing a n with
  | zero =>
      obtain ⟨n, rfl⟩ : ∃ m, n = m + 1 := ⟨n - 1, by omega⟩
      rw [Nat.add_zero] at hf
      simp [pollLoopAux, hf, hs, pollTraceFrom]
  | succ j ih =>
      obtain ⟨n, rfl⟩ : ∃ m, n = m + 1 := ⟨n - 1, by omega⟩
      obtain ⟨snap0, hfa, hnc, hnf⟩ := hpre a (Nat.le_refl a) (by omega)
      have ihe := ih n (a + 1)
        (fun i h1 h2 => hpre i (by omega) (by omega))
        (by omega) (by rw [show a + 1 + j = a + (j + 1) by omega]; exact hf)
      simp only [pollLoopAux, hfa, hnc, hnf, if_false, ihe, pollTraceFrom,
        List.cons_append, show a + 1 + j = a + (j + 1) by omega]

/-- If the first `j` fetches are non-terminal and fetch `a + j` returns
status `completed` within the fuel, the loop breaks out right there with
`completedWith` the fetched text. -/
theorem pollLoopAux_reach_completed (f : Nat → Except String PollSnapshot)
    (j : Nat) (n a : Nat) (snap : PollSnapshot)
    (hpre : ∀ i, a ≤ i → i < a + j → nonTerminalOk f i)
    (hj : j < n) (hf : f (a + j) = Except.ok snap)
    (hs : snap.status = "completed") :
    pollLoopAux f a n =
      (pollTraceFrom a j ++ [Effect.wait5s, Effect.fetchStatus (a + j)],
       PollOutcome.completedWith snap.text) := by
  induction j generalizing a n with
  | zero =>
      obtain ⟨n, rfl⟩ : ∃ m, n = m + 1 := ⟨n - 1, by omega⟩
      rw [Nat.add_zero] at hf
      simp [pollLoopAux, hf, hs, pollTraceFrom]
  | succ j ih =>
      obtain ⟨n, rfl⟩ : ∃ m, n = m + 1 := ⟨n - 1, by omega⟩
      obtain ⟨snap0, hfa, hnc, hnf⟩ := hpre a (Nat.le_refl a) (by omega)
      have ihe := ih n (a + 1)
        (fun i h1 h2 => hpre i (by omega) (by omega))
        (by omega) (by rw [show a + 1 + j = a + (j + 1) by omega]; exact hf)
      simp only [pollLoopAux, hfa, hnc, hnf, if_false, ihe, pollTraceFrom,
        List.cons_append, show a + 1 + j = a + (j + 1) by omega]

/-- The wait/fetch trace contains no insert effect. -/
theorem pollTraceFrom_no_insert (a n : Nat) (t : String) :
    Effect.insertRecord t ∉ pollTraceFrom a n := by
  induction n generalizing a with
  | zero => simp [pollTraceFrom]
  | succ n ih => simp [pollTraceFrom, ih (a + 1)]

/-- Whatever the polling outcome, the request's effect trace starts with the
upload call. -/
theorem afterPoll_trace_head (env : Env) (f : UploadedFile) (url : String)
    (polled : List Effect × PollOutcome) :
    ∃ rest, (afterPoll env f url polled).1 = Effect.uploadCall f.buffer :: rest := by
  cases polled with
  | mk es out =>
    cases out with
    | fetchError msg => exact ⟨_, rfl⟩
    | failedStatus => exact ⟨_, rfl⟩
    | exhausted => exact ⟨_, rfl⟩
    | completedWith t =>
        simp only [afterPoll]
        by_cases ht : truthyText t = true
        · simp only [ht, if_true]
          cases env.insert (t.getD "") with
          | none => exact ⟨_, rfl⟩
          | some m => exact ⟨_, rfl⟩
        · simp only [ht, if_false]
          exact ⟨_, rfl⟩

theorem handleTranscribe_upload_err (env : Env) (f : UploadedFile)
    (msg : String) (hu : env.upload f.buffer = Except.error msg) :
    handleTranscribe env (some f) =
      ([Effect.uploadCall f.buffer], errorResponse msg) := by
  simp [handleTranscribe, hu]

theorem handleTranscribe_job_err (env : Env) (f : UploadedFile)
    (url msg : String) (hu : env.upload f.buffer = Except.ok url)
    (hc : env.createJob url = Except.error msg) :
    handleTranscribe env (some f) =
      ([Effect.uploadCall f.buffer, Effect.createJobCall url],
       errorResponse msg) := by
  simp [handleTranscribe, hu, hc]

theorem handleTranscribe_poll (env : Env) (f : UploadedFile)
    (url tid : String) (hu : env.upload f.buffer = Except.ok url)
    (hc : env.createJob url = Except.ok tid) :
    handleTranscribe env (some f) =
      afterPoll env f url (pollLoop env.fetch 0) := by
  simp [handleTranscribe, hu, hc]

/-- Claim C1 counterexample: a `POST /transcribe` request without a file is
answered with HTTP 500 (the thrown `No file uploaded` error reaches the
global 500 error handler), not with the claimed 400. -/
theorem noFile_response_is_500_not_400 :
    (handleTranscribe envProcessing none).2.status = 500 ∧
    (handleTranscribe envProcessing none).2.status ≠ 400 := by decide

/-- Claim C1 (amended): a missing file yields status 500 with body
`{ error: "No file uploaded" }`, and every response of the handler is either
a 200 success or a 500 `{ error }` envelope — there is no 400 path. -/
theorem all_failures_are_500_error_envelope (env : Env)
    (file : Option UploadedFile) :
    (handleTranscribe env none).2 = errorResponse "No file uploaded" ∧
    (handleTranscribe env none).2.status = 500 ∧
    ((handleTranscribe env file).2.status = 200 ∨
      ((handleTranscribe env file).2.status = 500 ∧
        isErrorBody (handleTranscribe env file).2.body = true)) := by
  refine ⟨rfl, rfl, ?_⟩
  cases file with
  | none => right; exact ⟨rfl, rfl⟩
  | some f =>
    rcases hu : env.upload f.buffer with msg | url
    · rw [handleTranscribe_upload_err env f msg hu]; right; exact ⟨rfl, rfl⟩
    · rcases hc : env.createJob url with msg | tid
      · rw [handleTranscribe_job_err env f url msg hu hc]; right
        exact ⟨rfl, rfl⟩
      · rw [handleTranscribe_poll env f url tid hu hc]
        rcases hpoll : pollLoop env.fetch 0 with ⟨es, out⟩
        cases out with
        | fetchError m => right; exact ⟨rfl, rfl⟩
        | failedStatus => right; exact ⟨rfl, rfl⟩
        | exhausted => right; exact ⟨rfl, rfl⟩
        | completedWith t =>
          simp only [afterPoll]
          cases ht : truthyText t with
          | false => right; exact ⟨rfl, rfl⟩
          | true =>
            rcases hi : env.insert (t.getD "") with _ | m
            · left; rfl
            · right; exact ⟨rfl, rfl⟩

/-- Claim C2 counterexample: an empty (zero-byte) file attached to the request is
not rejected — the upload remote call is still issued, and the response is
not the invalid-input error. -/
theorem empty_buffer_still_uploads :
    Effect.uploadCall [] ∈ (handleTranscribe envJobRejected (some fileEmpty)).1 ∧
    (handleTranscribe envJobRejected (some fileEmpty)).2 ≠
      errorResponse "No file uploaded" := by decide

/-- Claim C2 (amended): only a *missing* file fails fast with the invalid-input
error and no remote call; any *present* file — empty buffer included — always
issues the upload remote call first. -/
theorem missing_file_no_remote_call (env : Env) (f : UploadedFile) :
    handleTranscribe env none = ([], errorResponse "No file uploaded") ∧
    ∃ rest, (handleTranscribe env (some f)).1 =
      Effect.uploadCall f.buffer :: rest := by
  refine ⟨rfl, ?_⟩
  rcases hu : env.upload f.buffer with msg | url
  · rw [handleTranscribe_upload_err env f msg hu]; exact ⟨[], rfl⟩
  · rcases hc : env.createJob url with msg | tid
    · rw [handleTranscribe_job_err env f url msg hu hc]
      exact ⟨[Effect.createJobCall url], rfl⟩
    · rw [handleTranscribe_poll env f url tid hu hc]
      exact afterPoll_trace_head env f url (pollLoop env.fetch 0)

/-- Claim C3: if every fetched status is non-terminal (never `completed` nor
`failed`), the loop runs exactly `MAX_RETRIES = 20` fetches, each preceded by
its 5-second wait (the shape of `pollTraceFrom`), the request fails with the
polling-timeout error, and no run of the loop ever exceeds 20 fetches. -/
theorem polling_nonterminal_exactly_20_fetches (env : Env) (f : UploadedFile)
    (url tid : String)
    (hu : env.upload f.buffer = Except.ok url)
    (hc : env.createJob url = Except.ok tid)
    (h : ∀ i, i < MAX_RETRIES → nonTerminalOk env.fetch i) :
    pollLoop env.fetch 0 = (pollTraceFrom 0 MAX_RETRIES, PollOutcome.exhausted) ∧
    countFetches (pollLoop env.fetch 0).1 = MAX_RETRIES ∧
    (handleTranscribe env (some f)).2 =
      errorResponse "Transcription polling timed out." ∧
    (∀ g : Nat → Except String PollSnapshot, ∀ a : Nat,
      countFetches (pollLoop g a).1 ≤ MAX_RETRIES) := by
  have hp : pollLoop env.fetch 0 =
      (pollTraceFrom 0 MAX_RETRIES, PollOutcome.exhausted) :=
    pollLoopAux_nonterminal env.fetch MAX_RETRIES 0
      (fun i h1 h2 => h i (by omega))
  refine ⟨hp, ?_, ?_, ?_⟩
  · rw [hp]; exact countFetches_pollTraceFrom 0 MAX_RETRIES
  · rw [handleTranscribe_poll env f url tid hu hc, hp]; rfl
  · intro g a
    have := pollLoopAux_fetch_bound g a (MAX_RETRIES - a)
    calc countFetches (pollLoop g a).1 ≤ MAX_RETRIES - a := this
    _ ≤ MAX_RETRIES := Nat.sub_le _ _

theorem polling_nonterminal_exactly_20_fetches_witness :
    pollLoop envProcessing.fetch 0 =
      (pollTraceFrom 0 MAX_RETRIES, PollOutcome.exhausted) ∧
    countFetches (pollLoop envProcessing.fetch 0).1 = MAX_RETRIES ∧
    (handleTranscribe envProcessing (some fileA)).2 =
      errorResponse "Transcription polling timed out." ∧
    countFetches (pollLoop envErrorStatus.fetch 3).1 ≤ MAX_RETRIES := by
  obtain ⟨h1, h2, h3, h4⟩ :=
    polling_nonterminal_exactly_20_fetches envProcessing fileA "u" "t" rfl rfl
      (fun i _ => ⟨{ status := "processing", text := none }, rfl,
        by decide, by decide⟩)
  exact ⟨h1, h2, h3, h4 envErrorStatus.fetch 3⟩

/-- An insert effect in the trace of `afterPoll` forces a truthy
`completedWith` outcome, and its text is the completed text. -/
theorem afterPoll_insert_mem (env : Env) (f : UploadedFile) (url : String)
    (es : List Effect) (out : PollOutcome) (t : String)
    (hmem : Effect.insertRecord t ∈ (afterPoll env f url (es, out)).1)
    (hes : Effect.insertRecord t ∉ es) :
    ∃ tx, out = PollOutcome.completedWith tx ∧ truthyText tx = true ∧
      t = tx.getD "" := by
  cases out with
  | fetchError m => simp [afterPoll] at hmem; exact absurd hmem hes
  | failedStatus => simp [afterPoll] at hmem; exact absurd hmem hes
  | exhausted => simp [afterPoll] at hmem; exact absurd hmem hes
  | completedWith tx =>
    cases ht : truthyText tx with
    | false => simp [afterPoll, ht] at hmem; exact absurd hmem hes
    | true =>
      rcases hi : env.insert (tx.getD "") with _ | m <;>
        simp [afterPoll, ht, hi] at hmem <;>
        rcases hmem with h | h
      · exact absurd h hes
      · exact ⟨tx, rfl, ht, h⟩
      · exact absurd h hes
      · exact ⟨tx, rfl, ht, h⟩

/-- Claim C4: an insert into the store is attempted only when some fetch observed
status `completed`; and when the attempted insert succeeds (the only case in
which a record is persisted), the request succeeds with status 200 — read
contrapositively, a request that ends in any failure persists no record. -/
theorem insert_only_after_completed (env : Env) (file : Option UploadedFile)
    (t : String)
    (hmem : Effect.insertRecord t ∈ (handleTranscribe env file).1) :
    (∃ i snap, env.fetch i = Except.ok snap ∧ snap.status = "completed") ∧
    (env.insert t = none → (handleTranscribe env file).2.status = 200) := by
  cases file with
  | none => simp [handleTranscribe] at hmem
  | some f =>
    rcases hu : env.upload f.buffer with msg | url
    · rw [handleTranscribe_upload_err env f msg hu] at hmem
      simp at hmem
    · rcases hc : env.createJob url with msg | tid
      · rw [handleTranscribe_job_err env f url msg hu hc] at hmem
        simp at hmem
      · rw [handleTranscribe_poll env f url tid hu hc] at hmem ⊢
        rcases hpoll : pollLoop env.fetch 0 with ⟨es, out⟩
        rw [hpoll] at hmem
        have hes : Effect.insertRecord t ∉ es := by
          intro hsmem
          have hni := pollLoopAux_no_insert env.fetch 0 (MAX_RETRIES - 0) t
          rw [show pollLoopAux env.fetch 0 (MAX_RETRIES - 0) =
            pollLoop env.fetch 0 from rfl, hpoll] at hni
          exact hni hsmem
        obtain ⟨tx, rfl, ht, rfl⟩ :=
          afterPoll_insert_mem env f url es out t hmem hes
        have hsrc : ∃ i snap, env.fetch i = Except.ok snap ∧
            snap.status = "completed" ∧ snap.text = tx := by
          apply pollLoopAux_completed_src env.fetch (MAX_RETRIES - 0) 0
          rw [show pollLoopAux env.fetch 0 (MAX_RETRIES - 0) =
            pollLoop env.fetch 0 from rfl, hpoll]
        obtain ⟨i, snap, hfi, hst, _⟩ := hsrc
        refine ⟨⟨i, snap, hfi, hst⟩, fun hins => ?_⟩
        simp [afterPoll, ht, hins]

theorem insert_only_after_completed_witness :
    (handleTranscribe envCompletedOk (some fileA)).2.status = 200 :=
  (insert_only_after_completed envCompletedOk (some fileA) "hello world"
    (by decide)).2 rfl

/-- Claim C5: once a fetch observes status `failed`, the loop throws
`Transcription failed` at once: the trace ends at that very fetch (no
further wait, no further fetch), having performed `k + 1` fetches. -/
theorem failed_status_stops_polling (env : Env) (f : UploadedFile)
    (url tid : String) (k : Nat) (snap : PollSnapshot)
    (hu : env.upload f.buffer = Except.ok url)
    (hc : env.createJob url = Except.ok tid)
    (hk : k < MAX_RETRIES)
    (hpre : ∀ i, i < k → nonTerminalOk env.fetch i)
    (hf : env.fetch k = Except.ok snap) (hs : snap.status = "failed") :
    pollLoop env.fetch 0 =
      (pollTraceFrom 0 k ++ [Effect.wait5s, Effect.fetchStatus k],
       PollOutcome.failedStatus) ∧
    countFetches (pollLoop env.fetch 0).1 = k + 1 ∧
    (handleTranscribe env (some f)).2 = errorResponse "Transcription failed" := by
  have hp := pollLoopAux_reach_failed env.fetch k MAX_RETRIES 0 snap
    (fun i h1 h2 => hpre i (by omega)) (by omega)
    (by rw [Nat.zero_add]; exact hf) hs
  rw [Nat.zero_add] at hp
  have hp' : pollLoop env.fetch 0 =
      (pollTraceFrom 0 k ++ [Effect.wait5s, Effect.fetchStatus k],
       PollOutcome.failedStatus) := hp
  refine ⟨hp', ?_, ?_⟩
  · rw [hp']
    show countFetches (pollTraceFrom 0 k ++ [Effect.wait5s, Effect.fetchStatus k]) = k + 1
    rw [countFetches_append, countFetches_pollTraceFrom]
    rfl
  · rw [handleTranscribe_poll env f url tid hu hc, hp']
    rfl

theorem failed_status_stops_polling_witness :
    pollLoop envFailedStatus.fetch 0 =
      (pollTraceFrom 0 0 ++ [Effect.wait5s, Effect.fetchStatus 0],
       PollOutcome.failedStatus) ∧
    countFetches (pollLoop envFailedStatus.fetch 0).1 = 0 + 1 ∧
    (handleTranscribe envFailedStatus (some fileA)).2 =
      errorResponse "Transcription failed" :=
  failed_status_stops_polling envFailedStatus fileA "u" "t" 0
    { status := "failed", text := none } rfl rfl (by decide)
    (fun i hi => absurd hi (by omega)) rfl rfl

/-- Claim C6: when the transcription completed with a non-empty text but the
Supabase insert fails, the request ends in the 500 error envelope carrying
the insert error, and the computed transcript is not returned. -/
theorem insert_failure_fails_request (env : Env) (f : UploadedFile)
    (url tid : String) (k : Nat) (s m : String)
    (hu : env.upload f.buffer = Except.ok url)
    (hc : env.createJob url = Except.ok tid)
    (hk : k < MAX_RETRIES)
    (hpre : ∀ i, i < k → nonTerminalOk env.fetch i)
    (hf : env.fetch k = Except.ok { status := "completed", text := some s })
    (hs : s ≠ "") (hins : env.insert s = some m) :
    (handleTranscribe env (some f)).2 =
      errorResponse ("Supabase Insert Error: " ++ m) ∧
    (handleTranscribe env (some f)).2.status = 500 ∧
    (handleTranscribe env (some f)).2.body ≠ ResponseBody.transcriptionOf s := by
  have hp := pollLoopAux_reach_completed env.fetch k MAX_RETRIES 0
    { status := "completed", text := some s }
    (fun i h1 h2 => hpre i (by omega)) (by omega)
    (by rw [Nat.zero_add]; exact hf) rfl
  rw [Nat.zero_add] at hp
  have hp' : pollLoop env.fetch 0 =
      (pollTraceFrom 0 k ++ [Effect.wait5s, Effect.fetchStatus k],
       PollOutcome.completedWith (some s)) := hp
  have ht : truthyText (some s) = true := by
    simp [truthyText, hs]
  have hmain : (handleTranscribe env (some f)).2 =
      errorResponse ("Supabase Insert Error: " ++ m) := by
    rw [handleTranscribe_poll env f url tid hu hc, hp']
    simp [afterPoll, ht, hins]
  refine ⟨hmain, by rw [hmain]; rfl, by rw [hmain]; simp [errorResponse]⟩

theorem insert_failure_fails_request_witness :
    (handleTranscribe envInsertFails (some fileA)).2 =
      errorResponse ("Supabase Insert Error: " ++ "disk full") ∧
    (handleTranscribe envInsertFails (some fileA)).2.status = 500 ∧
    (handleTranscribe envInsertFails (some fileA)).2.body ≠
      ResponseBody.transcriptionOf "hello world" :=
  insert_failure_fails_request envInsertFails fileA "u" "t" 0
    "hello world" "disk full" rfl rfl (by decide)
    (fun i hi => absurd hi (by omega)) rfl (by decide) rfl

/-- Claim C9: a poll that observes `completed` with an empty (falsy) transcript
text makes the handler fail with the polling-timeout error — it cannot tell
that case apart from a timeout — and no insert is attempted. -/
theorem empty_completed_text_times_out (env : Env) (f : UploadedFile)
    (url tid : String) (k : Nat) (t : Option String)
    (hu : env.upload f.buffer = Except.ok url)
    (hc : env.createJob url = Except.ok tid)
    (hk : k < MAX_RETRIES)
    (hpre : ∀ i, i < k → nonTerminalOk env.fetch i)
    (hf : env.fetch k = Except.ok { status := "completed", text := t })
    (ht : truthyText t = false) :
    (handleTranscribe env (some f)).2 =
      errorResponse "Transcription polling timed out." ∧
    ∀ s, Effect.insertRecord s ∉ (handleTranscribe env (some f)).1 := by
  have hp := pollLoopAux_reach_completed env.fetch k MAX_RETRIES 0
    { status := "completed", text := t }
    (fun i h1 h2 => hpre i (by omega)) (by omega)
    (by rw [Nat.zero_add]; exact hf) rfl
  rw [Nat.zero_add] at hp
  have hp' : pollLoop env.fetch 0 =
      (pollTraceFrom 0 k ++ [Effect.wait5s, Effect.fetchStatus k],
       PollOutcome.completedWith t) := hp
  constructor
  · rw [handleTranscribe_poll env f url tid hu hc, hp']
    simp [afterPoll, ht]
  · intro s
    rw [handleTranscribe_poll env f url tid hu hc, hp']
    simp [afterPoll, ht, pollTraceFrom_no_insert]

theorem empty_completed_text_times_out_witness :
    (handleTranscribe envCompletedEmpty (some fileA)).2 =
      errorResponse "Transcription polling timed out." ∧
    Effect.insertRecord "" ∉
      (handleTranscribe envCompletedEmpty (some fileA)).1 := by
  obtain ⟨h1, h2⟩ :=
    empty_completed_text_times_out envCompletedEmpty fileA "u" "t" 0
      (some "") rfl rfl (by decide) (fun i hi => absurd hi (by omega))
      rfl rfl
  exact ⟨h1, h2 ""⟩

/-- Claim C10: a fetched status other than exactly `completed` or `failed` —
including statuses outside the spec's enumeration, such as `error` — is
treated as non-terminal: the iteration records its wait and fetch, the
attempt counter advances, and the loop continues from the next attempt. -/
theorem unknown_status_continues_polling
    (f : Nat → Except String PollSnapshot) (a : Nat) (snap : PollSnapshot)
    (ha : a < MAX_RETRIES) (hf : f a = Except.ok snap)
    (hnc : snap.status ≠ "completed") (hnf : snap.status ≠ "failed") :
    pollLoop f a =
      (Effect.wait5s :: Effect.fetchStatus a :: (pollLoop f (a + 1)).1,
       (pollLoop f (a + 1)).2) := by
  have hfuel : MAX_RETRIES - a = (MAX_RETRIES - (a + 1)) + 1 := by omega
  show pollLoopAux f a (MAX_RETRIES - a) = _
  rw [hfuel]
  simp only [pollLoopAux, hf, hnc, hnf, if_false, pollLoop]

theorem unknown_status_continues_polling_witness :
    pollLoop envErrorStatus.fetch 0 =
      (Effect.wait5s :: Effect.fetchStatus 0 ::
        (pollLoop envErrorStatus.fetch (0 + 1)).1,
       (pollLoop envErrorStatus.fetch (0 + 1)).2) :=
  unknown_status_continues_polling envErrorStatus.fetch 0
    { status := "error", text := none } (by decide) rfl
    (by decide) (by decide)

/-- Claim C7: a successful `GET /transcriptions` answers 200 with the records
ordered by `created_at` descending (newest first), a permutation of
whatever was in the store, regardless of insertion order. -/
theorem listAll_sorted_desc (store : List Record) :
    (handleListTranscriptions none store).status = 200 ∧
    (handleListTranscriptions none store).body =
      ResponseBody.recordsOf ((List.insertionSort createdAtDesc store).map
        (fun r => (r.id, r.transcription, r.created_at))) ∧
    List.Sorted createdAtDesc (List.insertionSort createdAtDesc store) ∧
    (List.insertionSort createdAtDesc store).Perm store :=
  ⟨rfl, rfl, List.sorted_insertionSort createdAtDesc store,
    List.perm_insertionSort createdAtDesc store⟩

/-- Claim C8: deleting a non-existent id is not an error: the store is unchanged
and the handler still answers the success message; and deletion by id is
idempotent. -/
theorem deleteById_nonexistent_idempotent (store : List Record) (id : String)
    (h : ∀ r ∈ store, r.id ≠ id) :
    handleDeleteById none store id =
      (store,
       { status := 200,
         body := ResponseBody.messageOf "Transcription deleted successfully" }) ∧
    deleteById (deleteById store id) id = deleteById store id := by
  constructor
  · show (deleteById store id, _) = _
    have : deleteById store id = store := by
      apply List.filter_eq_self.mpr
      intro r hr
      simpa using h r hr
    rw [this]
  · apply List.filter_eq_self.mpr
    intro r hr
    exact (List.mem_filter.mp hr).2

theorem deleteById_nonexistent_idempotent_witness :
    handleDeleteById none
      [{ id := "1", transcription := "hi", created_at := 5 }] "2" =
      ([{ id := "1", transcription := "hi", created_at := 5 }],
       { status := 200,
         body := ResponseBody.messageOf "Transcription deleted successfully" }) ∧
    deleteById (deleteById
      [{ id := "1", transcription := "hi", created_at := 5 }] "2") "2" =
      deleteById
        [{ id := "1", transcription := "hi", created_at := 5 }] "2" :=
  deleteById_nonexistent_idempotent
    [{ id := "1", transcription := "hi", created_at := 5 }] "2" (by decide)

end TextSpeech
